import Mathlib

/-!
Verification of the blue-elephant engine client (`service-app/utils.py`).

The development shallowly embeds the Python module `utils.py`:

* Python/JSON values are modelled by the inductive type `Json`
  (dicts become association lists in insertion order, strings stay
  `String`, ints become `Int`; floats do not occur in the claims).
* The HTTP transport is an oracle value of type `TransportResult`
  describing what `requests.post` would do for one call: either an
  exception, or a response with a content type, an optional parsed
  JSON body (what `response.json()` would return, `none` when it
  would raise) and a raw text body.
* Each Python function of `EngineInfo` becomes a Lean function over
  such oracles; the paginated CSV export additionally returns the
  trace of request bodies it sent and of the page appends it made to
  the output file.
* `base64.b64encode`/`b64decode`, UTF-8 and `json.dumps`/`json.loads`
  are modelled executably and their round-trip properties are proved.
-/

/-- Python/JSON values as manipulated by `utils.py`: `None`, booleans,
integers, strings, lists and dicts (association lists in insertion
order, keys unique as in a Python dict). -/
inductive Json where
  | null : Json
  | bool (b : Bool) : Json
  | int (n : Int) : Json
  | str (s : String) : Json
  | arr (elems : List Json) : Json
  | obj (fields : List (String × Json)) : Json

/-- Python truthiness (`if not resp`): `None`, `False`, `0`, `""`,
`[]` and the empty dict are falsy, everything else truthy. -/
def Json.truthy : Json → Bool
  | .null => false
  | .bool b => b
  | .int n => n != 0
  | .str s => !s.isEmpty
  | .arr xs => !xs.isEmpty
  | .obj kvs => !kvs.isEmpty

/-- Association-list lookup for dict fields. -/
def Json.lookup (key : String) : List (String × Json) → Option Json
  | [] => none
  | (k, v) :: rest => if k = key then some v else Json.lookup key rest

/-- Python subscription `value[key]` for a string key: succeeds only on
a dict holding the key; any other case raises (`KeyError`/`TypeError`),
modelled as `none`. -/
def Json.getItem (v : Json) (key : String) : Option Json :=
  match v with
  | .obj kvs => Json.lookup key kvs
  | _ => none

/-! ## Base64 (`base64.b64encode` / `base64.b64decode`)

Bytes are `Nat`s below 256.  The decoder is the inverse of the standard
encoding on canonically padded input; non-alphabet input is rejected
(`b64decode` on such canonical material behaves identically). -/

/-- The standard base64 alphabet, as a character for index `i < 64`. -/
def b64char (i : Nat) : Char :=
  if i < 26 then Char.ofNat (65 + i)
  else if i < 52 then Char.ofNat (97 + (i - 26))
  else if i < 62 then Char.ofNat (48 + (i - 52))
  else if i = 62 then '+'
  else '/'

/-- Index of a character in the base64 alphabet, `none` when absent. -/
def b64val (c : Char) : Option Nat :=
  if 'A' ≤ c ∧ c ≤ 'Z' then some (c.toNat - 65)
  else if 'a' ≤ c ∧ c ≤ 'z' then some (26 + (c.toNat - 97))
  else if '0' ≤ c ∧ c ≤ '9' then some (52 + (c.toNat - 48))
  else if c = '+' then some 62
  else if c = '/' then some 63
  else none

/-- Model of `base64.b64encode` over a byte list, producing the character list of
the (canonically padded) base64 text. -/
def b64encodeBytes : List Nat → List Char
  | [] => []
  | [a] => [b64char (a / 4), b64char (a % 4 * 16), '=', '=']
  | [a, b] => [b64char (a / 4), b64char (a % 4 * 16 + b / 16), b64char (b % 16 * 4), '=']
  | a :: b :: c :: rest =>
      b64char (a / 4) :: b64char (a % 4 * 16 + b / 16) ::
      b64char (b % 16 * 4 + c / 64) :: b64char (c % 64) :: b64encodeBytes rest

/-- Model of `base64.b64decode` over the character list of a canonically padded
base64 text, producing the byte list; `none` models a raised
`binascii.Error` (or, equivalently for the claims, garbage input on
which decoding cannot return the original bytes). -/
def b64decodeChars : List Char → Option (List Nat)
  | [] => some []
  | c1 :: c2 :: c3 :: c4 :: rest => do
      let v1 ← b64val c1
      let v2 ← b64val c2
      if c3 = '=' then
        if c4 = '=' ∧ rest = [] then
          some [v1 * 4 + v2 / 16]
        else none
      else if c4 = '=' then
        if rest = [] then do
          let v3 ← b64val c3
          some [v1 * 4 + v2 / 16, v2 % 16 * 16 + v3 / 4]
        else none
      else do
        let v3 ← b64val c3
        let v4 ← b64val c4
        let tail ← b64decodeChars rest
        some ((v1 * 4 + v2 / 16) :: (v2 % 16 * 16 + v3 / 4) :: (v3 % 4 * 64 + v4) :: tail)
  | _ => none

theorem b64val_b64char (i : Nat) (h : i < 64) : b64val (b64char i) = some i := by
  interval_cases i <;> decide

theorem b64char_ne_eq (i : Nat) (h : i < 64) : b64char i ≠ '=' := by
  interval_cases i <;> decide

/-- Decoding inverts encoding on byte lists. -/
theorem b64decode_b64encode :
    ∀ bs : List Nat, (∀ x ∈ bs, x < 256) → b64decodeChars (b64encodeBytes bs) = some bs
  | [], _ => rfl
  | [a], h => by
      have ha : a < 256 := h a (by simp)
      have h1 : a / 4 < 64 := by omega
      have h2 : a % 4 * 16 < 64 := by omega
      simp [b64encodeBytes, b64decodeChars, b64val_b64char _ h1, b64val_b64char _ h2]
      omega
  | [a, b], h => by
      have ha : a < 256 := h a (by simp)
      have hb : b < 256 := h b (by simp)
      have h1 : a / 4 < 64 := by omega
      have h2 : a % 4 * 16 + b / 16 < 64 := by omega
      have h3 : b % 16 * 4 < 64 := by omega
      simp [b64encodeBytes, b64decodeChars, b64val_b64char _ h1, b64val_b64char _ h2,
        b64val_b64char _ h3, b64char_ne_eq _ h3]
      omega
  | [a, b, c], h => by
      have ha : a < 256 := h a (by simp)
      have hb : b < 256 := h b (by simp)
      have hc : c < 256 := h c (by simp)
      have h1 : a / 4 < 64 := by omega
      have h2 : a % 4 * 16 + b / 16 < 64 := by omega
      have h3 : b % 16 * 4 + c / 64 < 64 := by omega
      have h4 : c % 64 < 64 := by omega
      simp [b64encodeBytes, b64decodeChars, b64val_b64char _ h1, b64val_b64char _ h2,
        b64val_b64char _ h3, b64val_b64char _ h4, b64char_ne_eq _ h3, b64char_ne_eq _ h4]
      omega
  | a :: b :: c :: d :: rest, h => by
      have ha : a < 256 := h a (by simp)
      have hb : b < 256 := h b (by simp)
      have hc : c < 256 := h c (by simp)
      have h1 : a / 4 < 64 := by omega
      have h2 : a % 4 * 16 + b / 16 < 64 := by omega
      have h3 : b % 16 * 4 + c / 64 < 64 := by omega
      have h4 : c % 64 < 64 := by omega
      have ih := b64decode_b64encode (d :: rest) (fun x hx => h x (by simp at hx ⊢; tauto))
      simp [b64encodeBytes, b64decodeChars, b64val_b64char _ h1, b64val_b64char _ h2,
        b64val_b64char _ h3, b64val_b64char _ h4, b64char_ne_eq _ h3, b64char_ne_eq _ h4, ih]
      omega

/-! ## UTF-8

`json.loads` accepts the bytes returned by `b64decode` and decodes them
as UTF-8 before parsing; the remote encodes its JSON text as UTF-8. -/

/-- UTF-8 encoding of one unicode scalar value. -/
def utf8EncodeChar (c : Char) : List Nat :=
  let n := c.toNat
  if n < 128 then [n]
  else if n < 2048 then [192 + n / 64, 128 + n % 64]
  else if n < 65536 then [224 + n / 4096, 128 + n / 64 % 64, 128 + n % 64]
  else [240 + n / 262144, 128 + n / 4096 % 64, 128 + n / 64 % 64, 128 + n % 64]

/-- UTF-8 encoding of a character sequence. -/
def utf8Encode (cs : List Char) : List Nat :=
  (cs.map utf8EncodeChar).flatten

/-- Worker for UTF-8 decoding, structurally recursive on the byte list.
`pending` is the partial scalar value of the multi-byte sequence in
progress, `need` the number of continuation bytes still expected
(`0`: the next byte must be a start byte), `minv` the smallest scalar
legal for the sequence's length (overlong rejection). -/
def utf8DecodeS : List Nat → Nat → Nat → Nat → Option (List Char)
  | [], _, need, _ => if need = 0 then some [] else none
  | b :: rest, pending, need, minv =>
    if need = 0 then
      if b < 128 then (utf8DecodeS rest 0 0 0).map (fun cs => Char.ofNat b :: cs)
      else if b < 192 then none
      else if b < 224 then utf8DecodeS rest (b - 192) 1 128
      else if b < 240 then utf8DecodeS rest (b - 224) 2 2048
      else if b < 248 then utf8DecodeS rest (b - 240) 3 65536
      else none
    else
      if 128 ≤ b ∧ b < 192 then
        if need = 1 then
          if minv ≤ pending * 64 + (b - 128) ∧
              (pending * 64 + (b - 128) < 55296 ∨ 57344 ≤ pending * 64 + (b - 128)) ∧
              pending * 64 + (b - 128) < 1114112 then
            (utf8DecodeS rest 0 0 0).map
              (fun cs => Char.ofNat (pending * 64 + (b - 128)) :: cs)
          else none
        else utf8DecodeS rest (pending * 64 + (b - 128)) (need - 1) minv
      else none

/-- UTF-8 decoding of a byte sequence; `none` models a raised
`UnicodeDecodeError` (stray continuation bytes, truncated sequences,
overlong forms, surrogates and out-of-range values are rejected). -/
def utf8Decode (l : List Nat) : Option (List Char) :=
  utf8DecodeS l 0 0 0

theorem charOfNat_toNat (c : Char) : Char.ofNat c.toNat = c := by
  apply Char.eq_of_val_eq
  have hv : c.toNat.isValidChar := c.valid
  rw [Char.ofNat, dif_pos hv]
  apply UInt32.eq_of_toBitVec_eq
  apply BitVec.eq_of_toNat_eq
  simp [Char.ofNatAux, Char.toNat]
  rfl

theorem char_toNat_valid (c : Char) :
    c.toNat < 55296 ∨ (57343 < c.toNat ∧ c.toNat < 1114112) := c.valid

theorem utf8DecodeS_ascii (b pending minv : Nat) (rest : List Nat) (h : b < 128) :
    utf8DecodeS (b :: rest) pending 0 minv =
      (utf8DecodeS rest 0 0 0).map (fun cs => Char.ofNat b :: cs) := by
  rw [utf8DecodeS]
  simp only [if_pos rfl, if_pos h, if_true]

theorem utf8DecodeS_start2 (b pending minv : Nat) (rest : List Nat)
    (h1 : 192 ≤ b) (h2 : b < 224) :
    utf8DecodeS (b :: rest) pending 0 minv = utf8DecodeS rest (b - 192) 1 128 := by
  rw [utf8DecodeS]
  simp only [if_pos rfl, if_neg (by omega : ¬ b < 128), if_neg (by omega : ¬ b < 192),
    if_pos h2, if_true]

theorem utf8DecodeS_start3 (b pending minv : Nat) (rest : List Nat)
    (h1 : 224 ≤ b) (h2 : b < 240) :
    utf8DecodeS (b :: rest) pending 0 minv = utf8DecodeS rest (b - 224) 2 2048 := by
  rw [utf8DecodeS]
  simp only [if_pos rfl, if_neg (by omega : ¬ b < 128), if_neg (by omega : ¬ b < 192),
    if_neg (by omega : ¬ b < 224), if_pos h2, if_true]

theorem utf8DecodeS_start4 (b pending minv : Nat) (rest : List Nat)
    (h1 : 240 ≤ b) (h2 : b < 248) :
    utf8DecodeS (b :: rest) pending 0 minv = utf8DecodeS rest (b - 240) 3 65536 := by
  rw [utf8DecodeS]
  simp only [if_pos rfl, if_neg (by omega : ¬ b < 128), if_neg (by omega : ¬ b < 192),
    if_neg (by omega : ¬ b < 224), if_neg (by omega : ¬ b < 240), if_pos h2, if_true]

theorem utf8DecodeS_contMid (b pending need minv : Nat) (rest : List Nat)
    (h : 128 ≤ b ∧ b < 192) (hneed : 2 ≤ need) :
    utf8DecodeS (b :: rest) pending need minv =
      utf8DecodeS rest (pending * 64 + (b - 128)) (need - 1) minv := by
  rw [utf8DecodeS]
  simp only [if_neg (by omega : ¬ need = 0), if_pos h, if_neg (by omega : ¬ need = 1)]

theorem utf8DecodeS_contLast (b pending minv : Nat) (rest : List Nat)
    (h : 128 ≤ b ∧ b < 192)
    (hok : minv ≤ pending * 64 + (b - 128) ∧
      (pending * 64 + (b - 128) < 55296 ∨ 57344 ≤ pending * 64 + (b - 128)) ∧
      pending * 64 + (b - 128) < 1114112) :
    utf8DecodeS (b :: rest) pending 1 minv =
      (utf8DecodeS rest 0 0 0).map (fun cs => Char.ofNat (pending * 64 + (b - 128)) :: cs) := by
  rw [utf8DecodeS]
  simp only [if_neg (by omega : ¬ (1 : Nat) = 0), if_pos h, if_pos rfl, if_pos hok, if_true]

/-- Decoding one encoded character peels it off the byte stream. -/
theorem utf8Decode_encodeChar (c : Char) (rest : List Nat) :
    utf8DecodeS (utf8EncodeChar c ++ rest) 0 0 0 =
      (utf8DecodeS rest 0 0 0).map (fun cs => c :: cs) := by
  have hv := char_toNat_valid c
  by_cases h1 : c.toNat < 128
  · rw [utf8EncodeChar]
    simp only [if_pos h1, List.cons_append, List.nil_append]
    rw [utf8DecodeS_ascii _ _ _ _ h1, charOfNat_toNat]
  · by_cases h2 : c.toNat < 2048
    · rw [utf8EncodeChar]
      simp only [if_neg h1, if_pos h2, List.cons_append, List.nil_append]
      rw [utf8DecodeS_start2 _ _ _ _ (by omega) (by omega),
        utf8DecodeS_contLast _ _ _ _ (by omega) (by omega)]
      have e : (192 + c.toNat / 64 - 192) * 64 + (128 + c.toNat % 64 - 128) = c.toNat := by
        omega
      rw [e, charOfNat_toNat]
    · by_cases h3 : c.toNat < 65536
      · rw [utf8EncodeChar]
        simp only [if_neg h1, if_neg h2, if_pos h3, List.cons_append, List.nil_append]
        rw [utf8DecodeS_start3 _ _ _ _ (by omega) (by omega),
          utf8DecodeS_contMid _ _ _ _ _ (by omega) (by omega)]
        have e : (224 + c.toNat / 4096 - 224) * 64 + (128 + c.toNat / 64 % 64 - 128) =
            c.toNat / 64 := by omega
        rw [e]
        rw [utf8DecodeS_contLast _ _ _ _ (by omega) (by omega)]
        have e2 : c.toNat / 64 * 64 + (128 + c.toNat % 64 - 128) = c.toNat := by omega
        rw [e2, charOfNat_toNat]
      · rw [utf8EncodeChar]
        simp only [if_neg h1, if_neg h2, if_neg h3, List.cons_append, List.nil_append]
        have hr : c.toNat < 1114112 := by omega
        rw [utf8DecodeS_start4 _ _ _ _ (by omega) (by omega),
          utf8DecodeS_contMid _ _ _ _ _ (by omega) (by omega)]
        have e : (240 + c.toNat / 262144 - 240) * 64 + (128 + c.toNat / 4096 % 64 - 128) =
            c.toNat / 4096 := by omega
        rw [e]
        rw [utf8DecodeS_contMid _ _ _ _ _ (by omega) (by omega)]
        have e2 : c.toNat / 4096 * 64 + (128 + c.toNat / 64 % 64 - 128) = c.toNat / 64 := by
          omega
        rw [e2]
        rw [utf8DecodeS_contLast _ _ _ _ (by omega) (by omega)]
        have e3 : c.toNat / 64 * 64 + (128 + c.toNat % 64 - 128) = c.toNat := by omega
        rw [e3, charOfNat_toNat]

/-- UTF-8 decoding inverts UTF-8 encoding. -/
theorem utf8Decode_utf8Encode (cs : List Char) : utf8Decode (utf8Encode cs) = some cs := by
  rw [utf8Decode]
  induction cs with
  | nil => rfl
  | cons c rest ih =>
      rw [utf8Encode, List.map_cons, List.flatten_cons, utf8Decode_encodeChar]
      rw [utf8Encode] at ih
      simp [ih]

/-- UTF-8 encoding produces bytes. -/
theorem utf8Encode_lt_256 (cs : List Char) : ∀ x ∈ utf8Encode cs, x < 256 := by
  induction cs with
  | nil => simp [utf8Encode]
  | cons c rest ih =>
      intro x hx
      rw [utf8Encode, List.map_cons, List.flatten_cons, List.mem_append] at hx
      rcases hx with hx | hx
      · have hv := char_toNat_valid c
        rw [utf8EncodeChar] at hx
        split at hx
        · simp at hx; omega
        · split at hx
          · simp at hx; omega
          · split at hx
            · simp at hx; omega
            · simp at hx; omega
      · exact ih x (by rw [utf8Encode]; exact hx)

/-! ## JSON text (`json.dumps` on the remote side, `json.loads` in the
export decoder)

The serializer models the canonical JSON text of a value (no
whitespace, strings escaped, integer numbers); the parser models
`json.loads` restricted to that grammar.  Floats do not occur in any
claim and are not represented. -/

def isDigitB (c : Char) : Bool := 48 ≤ c.toNat && c.toNat ≤ 57

def hexDigit (n : Nat) : Char :=
  if n < 10 then Char.ofNat (48 + n) else Char.ofNat (87 + n)

def hexVal (c : Char) : Option Nat :=
  if 48 ≤ c.toNat ∧ c.toNat ≤ 57 then some (c.toNat - 48)
  else if 97 ≤ c.toNat ∧ c.toNat ≤ 102 then some (c.toNat - 87)
  else if 65 ≤ c.toNat ∧ c.toNat ≤ 70 then some (c.toNat - 55)
  else none

def escapeChar (c : Char) : List Char :=
  if c = '"' then ['\\', '"']
  else if c = '\\' then ['\\', '\\']
  else if c.toNat < 32 then ['\\', 'u', '0', '0', hexDigit (c.toNat / 16), hexDigit (c.toNat % 16)]
  else [c]

def escapeString (cs : List Char) : List Char := (cs.map escapeChar).flatten

def natToChars (n : Nat) : List Char :=
  if n < 10 then [Char.ofNat (48 + n)]
  else natToChars (n / 10) ++ [Char.ofNat (48 + n % 10)]
termination_by n
decreasing_by omega

def intToChars (i : Int) : List Char :=
  if i < 0 then '-' :: natToChars i.natAbs else natToChars i.toNat

/-- The character spelling of the JSON literal `null`. -/
def nullChars : List Char := ['n', 'u', 'l', 'l']

/-- The character spelling of the JSON literal `true`. -/
def trueChars : List Char := ['t', 'r', 'u', 'e']

/-- The character spelling of the JSON literal `false`. -/
def falseChars : List Char := ['f', 'a', 'l', 's', 'e']

mutual

def Json.serialize : Json → List Char
  | .null => nullChars
  | .bool true => trueChars
  | .bool false => falseChars
  | .int n => intToChars n
  | .str s => '"' :: escapeString s.data ++ ['"']
  | .arr xs => '[' :: serializeElems xs ++ [']']
  | .obj kvs => '\x7b' :: serializeMembers kvs ++ ['\x7d']

def serializeElems : List Json → List Char
  | [] => []
  | [x] => Json.serialize x
  | x :: y :: rest => Json.serialize x ++ ',' :: serializeElems (y :: rest)

def serializeMembers : List (String × Json) → List Char
  | [] => []
  | [(k, v)] => '"' :: escapeString k.data ++ '"' :: ':' :: Json.serialize v
  | (k, v) :: kv :: rest =>
      ('"' :: escapeString k.data ++ '"' :: ':' :: Json.serialize v) ++
        ',' :: serializeMembers (kv :: rest)

end

def unescapeChar (e : Char) : Option Char :=
  if e = '"' then some '"'
  else if e = '\\' then some '\\'
  else if e = '/' then some '/'
  else if e = 'n' then some (Char.ofNat 10)
  else if e = 't' then some (Char.ofNat 9)
  else if e = 'r' then some (Char.ofNat 13)
  else if e = 'b' then some (Char.ofNat 8)
  else if e = 'f' then some (Char.ofNat 12)
  else none

def escHex : List Char → Option (Char × List Char)
  | h1 :: h2 :: h3 :: h4 :: rest => do
      let v1 ← hexVal h1
      let v2 ← hexVal h2
      let v3 ← hexVal h3
      let v4 ← hexVal h4
      some (Char.ofNat (((v1 * 16 + v2) * 16 + v3) * 16 + v4), rest)
  | _ => none

def escSplit : List Char → Option (Char × List Char)
  | [] => none
  | e :: rest =>
    if e = 'u' then escHex rest
    else (unescapeChar e).map (fun ec => (ec, rest))

theorem escHex_length (l : List Char) (ec : Char) (r : List Char)
    (h : escHex l = some (ec, r)) : r.length + 4 = l.length := by
  match l with
  | h1 :: h2 :: h3 :: h4 :: rest =>
      rw [escHex] at h
      cases hv1 : hexVal h1 <;> rw [hv1] at h <;> simp at h
      cases hv2 : hexVal h2 <;> rw [hv2] at h <;> simp at h
      cases hv3 : hexVal h3 <;> rw [hv3] at h <;> simp at h
      cases hv4 : hexVal h4 <;> rw [hv4] at h <;> simp at h
      simp [← h.2]
  | [] => simp [escHex] at h
  | [h1] => simp [escHex] at h
  | [h1, h2] => simp [escHex] at h
  | [h1, h2, h3] => simp [escHex] at h

theorem escSplit_length (l : List Char) (ec : Char) (r : List Char)
    (h : escSplit l = some (ec, r)) : r.length < l.length := by
  match l with
  | [] => simp [escSplit] at h
  | e :: rest =>
      rw [escSplit] at h
      split at h
      · have := escHex_length rest ec r h
        simp
        omega
      · cases hu : unescapeChar e <;> rw [hu] at h <;> simp at h
        simp [← h.2]

def parseStringBody : List Char → Option (List Char × List Char)
  | [] => none
  | c :: rest =>
    if c = '"' then some ([], rest)
    else if c = '\\' then
      match h : escSplit rest with
      | some (ec, rest2) => (parseStringBody rest2).map (fun p => (ec :: p.1, p.2))
      | none => none
    else (parseStringBody rest).map (fun p => (c :: p.1, p.2))
termination_by l => l.length
decreasing_by
  · have := escSplit_length rest ec rest2 h
    simp
    omega
  · simp

def parseDigits : List Char → Nat → Nat × List Char
  | [], acc => (acc, [])
  | c :: rest, acc =>
    if isDigitB c then parseDigits rest (acc * 10 + (c.toNat - 48)) else (acc, c :: rest)

def parseNatNum : List Char → Option (Nat × List Char)
  | [] => none
  | c :: rest => if isDigitB c then some (parseDigits (c :: rest) 0) else none

def parseNumber : List Char → Option (Json × List Char)
  | [] => none
  | c :: rest =>
    if c = '-' then (parseNatNum rest).map (fun p => (Json.int (-(p.1 : Int)), p.2))
    else (parseNatNum (c :: rest)).map (fun p => (Json.int (p.1 : Int), p.2))

mutual

def parseVal : Nat → List Char → Option (Json × List Char)
  | 0, _ => none
  | _ + 1, [] => none
  | fuel + 1, c :: rest =>
    if c = 'n' then
      match rest with
      | 'u' :: 'l' :: 'l' :: r => some (.null, r)
      | _ => none
    else if c = 't' then
      match rest with
      | 'r' :: 'u' :: 'e' :: r => some (.bool true, r)
      | _ => none
    else if c = 'f' then
      match rest with
      | 'a' :: 'l' :: 's' :: 'e' :: r => some (.bool false, r)
      | _ => none
    else if c = '"' then
      (parseStringBody rest).map (fun p => (.str (String.mk p.1), p.2))
    else if c = '[' then
      (parseElems fuel rest).map (fun p => (.arr p.1, p.2))
    else if c = '\x7b' then
      (parseMembers fuel rest).map (fun p => (.obj p.1, p.2))
    else if c = '-' ∨ isDigitB c then parseNumber (c :: rest)
    else none
termination_by structural fuel => fuel

def parseElems : Nat → List Char → Option (List Json × List Char)
  | 0, _ => none
  | _ + 1, [] => none
  | fuel + 1, c :: rest =>
    if c = ']' then some ([], rest)
    else
      match parseVal fuel (c :: rest) with
      | some (j, ',' :: r2) => (parseElems fuel r2).map (fun p => (j :: p.1, p.2))
      | some (j, ']' :: r2) => some ([j], r2)
      | _ => none
termination_by structural fuel => fuel

def parseMembers : Nat → List Char → Option (List (String × Json) × List Char)
  | 0, _ => none
  | _ + 1, [] => none
  | fuel + 1, c :: rest =>
    if c = '\x7d' then some ([], rest)
    else if c = '"' then
      match parseStringBody rest with
      | some (k, ':' :: r2) =>
        (match parseVal fuel r2 with
         | some (v, ',' :: r3) =>
             (parseMembers fuel r3).map (fun p => ((String.mk k, v) :: p.1, p.2))
         | some (v, '\x7d' :: r3) => some ([(String.mk k, v)], r3)
         | _ => none)
      | _ => none
    else none
termination_by structural fuel => fuel

end


theorem toNat_charOfNat (k : Nat) (h : k < 55296) : (Char.ofNat k).toNat = k := by
  rw [Char.ofNat, dif_pos (Or.inl h)]
  simp [Char.ofNatAux, Char.toNat]
  rfl

theorem natToChars_digits (n : Nat) : ∀ c ∈ natToChars n, isDigitB c = true := by
  induction n using Nat.strong_induction_on with
  | _ n ih =>
    intro c hc
    rw [natToChars] at hc
    split at hc
    · simp at hc
      subst hc
      simp [isDigitB, toNat_charOfNat (48 + n) (by omega)]
      omega
    · rw [List.mem_append] at hc
      rcases hc with hc | hc
      · exact ih (n / 10) (by omega) c hc
      · simp at hc
        subst hc
        simp [isDigitB, toNat_charOfNat (48 + n % 10) (by omega)]
        omega

theorem natToChars_ne_nil (n : Nat) : natToChars n ≠ [] := by
  rw [natToChars]
  split <;> simp

theorem parseDigits_append (n : Nat) :
    ∀ acc rest, parseDigits (natToChars n ++ rest) acc =
      parseDigits rest (acc * 10 ^ (natToChars n).length + n) := by
  induction n using Nat.strong_induction_on with
  | _ n ih =>
    intro acc rest
    rw [natToChars]
    split
    · rename_i h
      rw [List.singleton_append, parseDigits,
        if_pos (by simp [isDigitB, toNat_charOfNat (48 + n) (by omega)]; omega)]
      rw [toNat_charOfNat (48 + n) (by omega)]
      have : (48 + n - 48) = n := by omega
      rw [this]
      norm_num
    · rename_i h
      rw [List.append_assoc, ih (n / 10) (by omega), List.singleton_append, parseDigits,
        if_pos (by simp [isDigitB, toNat_charOfNat (48 + n % 10) (by omega)]; omega)]
      rw [toNat_charOfNat (48 + n % 10) (by omega)]
      congr 1
      have hlen : (natToChars (n / 10) ++ [Char.ofNat (48 + n % 10)]).length =
          (natToChars (n / 10)).length + 1 := by simp
      rw [hlen, pow_succ]
      have : (48 + n % 10 - 48) = n % 10 := by omega
      rw [this]
      have hn : n = n / 10 * 10 + n % 10 := by omega
      generalize (10 : Nat) ^ (natToChars (n / 10)).length = t
      ring_nf
      omega

def restOk : List Char → Prop
  | [] => True
  | c :: _ => isDigitB c = false

theorem parseDigits_stop (acc : Nat) (rest : List Char) (h : restOk rest) :
    parseDigits rest acc = (acc, rest) := by
  cases rest with
  | nil => rfl
  | cons c r =>
      rw [parseDigits, if_neg]
      rw [restOk] at h
      simp [h]

theorem parseNatNum_natToChars (n : Nat) (rest : List Char) (h : restOk rest) :
    parseNatNum (natToChars n ++ rest) = some (n, rest) := by
  obtain ⟨c, cs, hc⟩ : ∃ c cs, natToChars n = c :: cs := by
    cases hn : natToChars n with
    | nil => exact absurd hn (natToChars_ne_nil n)
    | cons c cs => exact ⟨c, cs, rfl⟩
  have hd : isDigitB c = true := natToChars_digits n c (by rw [hc]; simp)
  rw [hc, List.cons_append, parseNatNum, if_pos hd, ← List.cons_append, ← hc,
    parseDigits_append, parseDigits_stop _ _ h]
  simp

theorem hexVal_hexDigit (i : Nat) (h : i < 16) : hexVal (hexDigit i) = some i := by
  interval_cases i <;> decide

theorem string_mk_data (s : String) : String.mk s.data = s := rfl

theorem hexVal_zero : hexVal '0' = some 0 := by decide

theorem parseStringBody_escape (cs : List Char) (rest : List Char) :
    parseStringBody (escapeString cs ++ '"' :: rest) = some (cs, rest) := by
  induction cs with
  | nil =>
      show parseStringBody ('"' :: rest) = some ([], rest)
      rw [parseStringBody]
      simp
  | cons c cs' ih =>
      have hstep : escapeString (c :: cs') = escapeChar c ++ escapeString cs' := by
        simp [escapeString]
      rw [hstep, List.append_assoc]
      by_cases h1 : c = '"'
      · subst h1
        rw [escapeChar, if_pos rfl]
        simp only [List.cons_append, List.nil_append]
        rw [parseStringBody]
        simp +decide [escSplit, unescapeChar, ih]
      · by_cases h2 : c = '\\'
        · subst h2
          rw [escapeChar, if_neg (by decide), if_pos rfl]
          simp only [List.cons_append, List.nil_append]
          rw [parseStringBody]
          simp +decide [escSplit, unescapeChar, ih]
        · by_cases h3 : c.toNat < 32
          · rw [escapeChar, if_neg h1, if_neg h2, if_pos h3]
            have hv1 : c.toNat / 16 < 16 := by omega
            have hv2 : c.toNat % 16 < 16 := by omega
            have e2 : c.toNat / 16 * 16 + c.toNat % 16 = c.toNat := by omega
            have hsplit : escSplit ('u' :: '0' :: '0' :: hexDigit (c.toNat / 16) ::
                hexDigit (c.toNat % 16) :: (escapeString cs' ++ '"' :: rest)) =
                some (c, escapeString cs' ++ '"' :: rest) := by
              rw [escSplit, if_pos rfl, escHex]
              simp [hexVal_zero, hexVal_hexDigit _ hv1, hexVal_hexDigit _ hv2, e2,
                charOfNat_toNat]
            simp only [List.cons_append, List.nil_append]
            rw [parseStringBody, if_neg (by decide), if_pos rfl]
            split
            · rename_i ec rest2 heq
              rw [hsplit] at heq
              simp only [Option.some.injEq, Prod.mk.injEq] at heq
              rw [← heq.1, ← heq.2]
              simp [ih]
            · rename_i heq
              rw [hsplit] at heq
              exact absurd heq (by simp)
          · rw [escapeChar, if_neg h1, if_neg h2, if_neg h3]
            simp only [List.cons_append, List.nil_append]
            rw [parseStringBody, if_neg h1, if_neg h2]
            simp [ih]

theorem digitB_bounds (c : Char) (h : isDigitB c = true) : 48 ≤ c.toNat ∧ c.toNat ≤ 57 := by
  simp [isDigitB] at h
  exact h

theorem digit_ne_special (c : Char) (h : isDigitB c = true) :
    c ≠ 'n' ∧ c ≠ 't' ∧ c ≠ 'f' ∧ c ≠ '"' ∧ c ≠ '[' ∧ c ≠ '\x7b' ∧ c ≠ '-' ∧ c ≠ ']' ∧
      c ≠ ',' ∧ c ≠ '\x7d' ∧ c ≠ ':' := by
  refine ⟨?_, ?_, ?_, ?_, ?_, ?_, ?_, ?_, ?_, ?_, ?_⟩ <;>
    (intro heq; subst heq; exact absurd h (by decide))

/-- The first character of a serialized value, with the facts needed to
drive the parser: it is the value's kind marker and in particular none
of the structural delimiters. -/
theorem serialize_head (j : Json) :
    ∃ c cs, Json.serialize j = c :: cs ∧ c ≠ ']' ∧ c ≠ ',' ∧ c ≠ '\x7d' := by
  cases j with
  | null => exact ⟨'n', ['u', 'l', 'l'], by simp [Json.serialize, nullChars], by decide, by decide,
      by decide⟩
  | bool b =>
      cases b with
      | true => exact ⟨'t', ['r', 'u', 'e'], by simp [Json.serialize, trueChars], by decide, by decide,
          by decide⟩
      | false => exact ⟨'f', ['a', 'l', 's', 'e'], by simp [Json.serialize, falseChars], by decide,
          by decide, by decide⟩
  | int n =>
      by_cases hn : n < 0
      · exact ⟨'-', natToChars n.natAbs, by simp [Json.serialize, intToChars, if_pos hn],
          by decide, by decide, by decide⟩
      · obtain ⟨c, cs, hc⟩ : ∃ c cs, natToChars n.toNat = c :: cs := by
          cases hnc : natToChars n.toNat with
          | nil => exact absurd hnc (natToChars_ne_nil _)
          | cons c cs => exact ⟨c, cs, rfl⟩
        have hd := natToChars_digits n.toNat c (by rw [hc]; simp)
        have hb := digitB_bounds c hd
        refine ⟨c, cs, by simp [Json.serialize, intToChars, if_neg hn, hc], ?_, ?_, ?_⟩ <;>
          (intro heq; subst heq; revert hb; decide)
  | str s => exact ⟨'"', escapeString s.data ++ ['"'], by simp [Json.serialize], by decide,
      by decide, by decide⟩
  | arr xs => exact ⟨'[', serializeElems xs ++ [']'], by simp [Json.serialize], by decide,
      by decide, by decide⟩
  | obj kvs => exact ⟨'\x7b', serializeMembers kvs ++ ['\x7d'], by simp [Json.serialize],
      by decide, by decide, by decide⟩

mutual

def jsize : Json → Nat
  | .null => 1
  | .bool _ => 1
  | .int _ => 1
  | .str _ => 1
  | .arr xs => 1 + esize xs
  | .obj kvs => 1 + msize kvs

def esize : List Json → Nat
  | [] => 1
  | x :: rest => jsize x + 1 + esize rest

def msize : List (String × Json) → Nat
  | [] => 1
  | (_, val) :: more => jsize val + 1 + msize more

end

theorem jsize_pos (j : Json) : 1 ≤ jsize j := by
  cases j <;> simp [jsize]

theorem esize_pos (xs : List Json) : 1 ≤ esize xs := by
  cases xs <;> simp [esize] <;> omega

theorem msize_pos (kvs : List (String × Json)) : 1 ≤ msize kvs := by
  cases kvs with
  | nil => simp [msize]
  | cons kv rest => cases kv; simp [msize]; omega

theorem serialize_null_eq : Json.serialize .null = ['n', 'u', 'l', 'l'] := by
  simp [Json.serialize, nullChars]

theorem serialize_true_eq : Json.serialize (.bool true) = ['t', 'r', 'u', 'e'] := by
  simp [Json.serialize, trueChars]

theorem serialize_false_eq : Json.serialize (.bool false) = ['f', 'a', 'l', 's', 'e'] := by
  simp [Json.serialize, falseChars]

theorem serialize_int_eq (n : Int) : Json.serialize (.int n) = intToChars n := by
  simp [Json.serialize]

theorem serialize_str_eq (s : String) :
    Json.serialize (.str s) = '"' :: escapeString s.data ++ ['"'] := by
  simp [Json.serialize]

theorem serialize_arr_eq (xs : List Json) :
    Json.serialize (.arr xs) = '[' :: serializeElems xs ++ [']'] := by
  simp [Json.serialize]

theorem serialize_obj_eq (kvs : List (String × Json)) :
    Json.serialize (.obj kvs) = '\x7b' :: serializeMembers kvs ++ ['\x7d'] := by
  simp [Json.serialize]

theorem serializeElems_nil : serializeElems [] = [] := by simp [serializeElems]

theorem serializeElems_single (x : Json) : serializeElems [x] = Json.serialize x := by
  simp [serializeElems]

theorem serializeElems_cons2 (x y : Json) (r : List Json) :
    serializeElems (x :: y :: r) = Json.serialize x ++ ',' :: serializeElems (y :: r) := by
  simp [serializeElems]

theorem serializeMembers_nil : serializeMembers [] = [] := by simp [serializeMembers]

theorem serializeMembers_single (k : String) (v : Json) :
    serializeMembers [(k, v)] = '"' :: escapeString k.data ++ '"' :: ':' :: Json.serialize v
    := by simp [serializeMembers]

theorem serializeMembers_cons2 (k : String) (v : Json) (kv : String × Json)
    (r : List (String × Json)) :
    serializeMembers ((k, v) :: kv :: r) =
      ('"' :: escapeString k.data ++ '"' :: ':' :: Json.serialize v) ++
        ',' :: serializeMembers (kv :: r) := by
  simp [serializeMembers]

theorem jsize_arr_eq (xs : List Json) : jsize (.arr xs) = 1 + esize xs := by simp [jsize]

theorem jsize_obj_eq (kvs : List (String × Json)) : jsize (.obj kvs) = 1 + msize kvs := by
  simp [jsize]

theorem esize_nil_eq : esize [] = 1 := by simp [esize]

theorem esize_cons_eq (x : Json) (r : List Json) : esize (x :: r) = jsize x + 1 + esize r :=
  by simp [esize]

theorem msize_nil_eq : msize [] = 1 := by simp [msize]

theorem msize_cons_eq (k : String) (v : Json) (r : List (String × Json)) :
    msize ((k, v) :: r) = jsize v + 1 + msize r := by simp [msize]

attribute [irreducible] Json.serialize serializeElems serializeMembers jsize esize msize

theorem parseVal_digit (f : Nat) (c : Char) (rest : List Char) (hd : isDigitB c = true) :
    parseVal (f + 1) (c :: rest) =
      (parseNatNum (c :: rest)).map (fun p => (Json.int (p.1 : Int), p.2)) := by
  have hb := digitB_bounds c hd
  have hcc := charOfNat_toNat c
  have hcase : c.toNat = 48 ∨ c.toNat = 49 ∨ c.toNat = 50 ∨ c.toNat = 51 ∨ c.toNat = 52 ∨
      c.toNat = 53 ∨ c.toNat = 54 ∨ c.toNat = 55 ∨ c.toNat = 56 ∨ c.toNat = 57 := by omega
  rcases hcase with h | h | h | h | h | h | h | h | h | h <;>
    (rw [← hcc, h]; rfl)

theorem parseElems_step (f : Nat) (c : Char) (rest : List Char) (h : c ≠ ']') :
    parseElems (f + 1) (c :: rest) =
      match parseVal f (c :: rest) with
      | some (j, ',' :: r2) => (parseElems f r2).map (fun p => (j :: p.1, p.2))
      | some (j, ']' :: r2) => some ([j], r2)
      | _ => none := by
  rw [parseElems.eq_def]
  simp only [if_neg h]

mutual

theorem parseVal_serialize (j : Json) (fuel : Nat) (rest : List Char)
    (hf : jsize j ≤ fuel) (hrest : restOk rest) :
    parseVal fuel (Json.serialize j ++ rest) = some (j, rest) := by
  obtain ⟨f, rfl⟩ : ∃ f, fuel = f + 1 := ⟨fuel - 1, by have := jsize_pos j; omega⟩
  cases j with
  | null =>
      rw [serialize_null_eq]
      rfl
  | bool b =>
      cases b with
      | true =>
          rw [serialize_true_eq]
          rfl
      | false =>
          rw [serialize_false_eq]
          rfl
  | int n =>
      by_cases hn : n < 0
      · rw [show Json.serialize (.int n) ++ rest =
            '-' :: (natToChars n.natAbs ++ rest) by
          rw [serialize_int_eq]
          simp [intToChars, if_pos hn]]
        show (parseNatNum (natToChars n.natAbs ++ rest)).map
            (fun p => (Json.int (-(p.1 : Int)), p.2)) = some (Json.int n, rest)
        rw [parseNatNum_natToChars _ _ hrest]
        have habs : ((n.natAbs : Int)) = -n := by omega
        simp [habs]
      · rw [show Json.serialize (.int n) = natToChars n.toNat by
          rw [serialize_int_eq]
          simp [intToChars, if_neg hn]]
        obtain ⟨c, cs, hc⟩ : ∃ c cs, natToChars n.toNat = c :: cs := by
          cases hnc : natToChars n.toNat with
          | nil => exact absurd hnc (natToChars_ne_nil _)
          | cons c cs => exact ⟨c, cs, rfl⟩
        have hd := natToChars_digits n.toNat c (by rw [hc]; simp)
        rw [hc, List.cons_append, parseVal_digit f c _ hd,
          ← List.cons_append, ← hc, parseNatNum_natToChars _ _ hrest]
        have htn : ((n.toNat : Int)) = n := by omega
        simp [htn]
  | str s =>
      rw [show Json.serialize (.str s) ++ rest =
          '"' :: (escapeString s.data ++ '"' :: rest) by
        rw [serialize_str_eq]
        simp]
      show (parseStringBody (escapeString s.data ++ '"' :: rest)).map
          (fun p => (Json.str (String.mk p.1), p.2)) = some (Json.str s, rest)
      rw [parseStringBody_escape]
      simp [string_mk_data]
  | arr xs =>
      rw [show Json.serialize (.arr xs) ++ rest =
          '[' :: (serializeElems xs ++ ']' :: rest) by
        rw [serialize_arr_eq]
        simp]
      show (parseElems f (serializeElems xs ++ ']' :: rest)).map
          (fun p => (Json.arr p.1, p.2)) = some (Json.arr xs, rest)
      rw [parseElems_serialize xs f rest (by rw [jsize_arr_eq] at hf; omega)]
      simp
  | obj kvs =>
      rw [show Json.serialize (.obj kvs) ++ rest =
          '\x7b' :: (serializeMembers kvs ++ '\x7d' :: rest) by
        rw [serialize_obj_eq]
        simp]
      show (parseMembers f (serializeMembers kvs ++ '\x7d' :: rest)).map
          (fun p => (Json.obj p.1, p.2)) = some (Json.obj kvs, rest)
      rw [parseMembers_serialize kvs f rest (by rw [jsize_obj_eq] at hf; omega)]
      simp
termination_by fuel

theorem parseElems_serialize (xs : List Json) (fuel : Nat) (rest : List Char)
    (hf : esize xs ≤ fuel) :
    parseElems fuel (serializeElems xs ++ ']' :: rest) = some (xs, rest) := by
  obtain ⟨f, rfl⟩ : ∃ f, fuel = f + 1 := ⟨fuel - 1, by have := esize_pos xs; omega⟩
  match xs with
  | [] =>
      rw [serializeElems_nil]
      rfl
  | [x] =>
      obtain ⟨c, cs, hc, hne1, _, _⟩ := serialize_head x
      have hro : restOk (']' :: rest) := by simp only [restOk]; decide
      have hsx : jsize x ≤ f := by
        rw [esize_cons_eq, esize_nil_eq] at hf
        omega
      rw [serializeElems_single, hc, List.cons_append, parseElems_step f c _ hne1,
        ← List.cons_append, ← hc, parseVal_serialize x f (']' :: rest) hsx hro]
      rfl
  | x :: y :: r =>
      obtain ⟨c, cs, hc, hne1, _, _⟩ := serialize_head x
      have hro : restOk (',' :: (serializeElems (y :: r) ++ ']' :: rest)) := by
        simp only [restOk]
        decide
      have hsz := esize_cons_eq x (y :: r)
      have hsx : jsize x ≤ f := by
        have := esize_pos (y :: r)
        omega
      have hsy : esize (y :: r) ≤ f := by
        have := jsize_pos x
        omega
      rw [serializeElems_cons2, List.append_assoc, List.cons_append, hc, List.cons_append,
        parseElems_step f c _ hne1, ← List.cons_append, ← hc,
        parseVal_serialize x f _ hsx hro]
      show (parseElems f (serializeElems (y :: r) ++ ']' :: rest)).map
          (fun p => (x :: p.1, p.2)) = some (x :: y :: r, rest)
      rw [parseElems_serialize (y :: r) f rest hsy]
      simp
termination_by fuel

theorem parseMembers_serialize (kvs : List (String × Json)) (fuel : Nat) (rest : List Char)
    (hf : msize kvs ≤ fuel) :
    parseMembers fuel (serializeMembers kvs ++ '\x7d' :: rest) = some (kvs, rest) := by
  obtain ⟨f, rfl⟩ : ∃ f, fuel = f + 1 := ⟨fuel - 1, by have := msize_pos kvs; omega⟩
  match kvs with
  | [] =>
      rw [serializeMembers_nil]
      rfl
  | [(k, v)] =>
      have hro : restOk ('\x7d' :: rest) := by simp only [restOk]; decide
      have hsv : jsize v ≤ f := by
        rw [msize_cons_eq, msize_nil_eq] at hf
        omega
      rw [show serializeMembers [(k, v)] ++ '\x7d' :: rest =
          '"' :: (escapeString k.data ++ '"' :: (':' :: (Json.serialize v ++ '\x7d' :: rest)))
          by rw [serializeMembers_single]; simp]
      show (match parseStringBody (escapeString k.data ++
            '"' :: (':' :: (Json.serialize v ++ '\x7d' :: rest))) with
        | some (k2, ':' :: r2) =>
          (match parseVal f r2 with
           | some (v2, ',' :: r3) =>
               (parseMembers f r3).map (fun p => ((String.mk k2, v2) :: p.1, p.2))
           | some (v2, '\x7d' :: r3) => some ([(String.mk k2, v2)], r3)
           | _ => none)
        | _ => none) = some ([(k, v)], rest)
      rw [parseStringBody_escape]
      show (match parseVal f (Json.serialize v ++ '\x7d' :: rest) with
        | some (v2, ',' :: r3) =>
            (parseMembers f r3).map (fun p => ((String.mk k.data, v2) :: p.1, p.2))
        | some (v2, '\x7d' :: r3) => some ([(String.mk k.data, v2)], r3)
        | _ => none) = some ([(k, v)], rest)
      rw [parseVal_serialize v f ('\x7d' :: rest) hsv hro]
      simp [string_mk_data]
  | (k, v) :: kv :: r =>
      have hro : restOk (',' :: (serializeMembers (kv :: r) ++ '\x7d' :: rest)) := by
        simp only [restOk]
        decide
      have hsz := msize_cons_eq k v (kv :: r)
      have hsv : jsize v ≤ f := by
        have := msize_pos (kv :: r)
        omega
      have hsr : msize (kv :: r) ≤ f := by
        have := jsize_pos v
        omega
      rw [show serializeMembers ((k, v) :: kv :: r) ++ '\x7d' :: rest =
          '"' :: (escapeString k.data ++ '"' :: (':' :: (Json.serialize v ++
            ',' :: (serializeMembers (kv :: r) ++ '\x7d' :: rest)))) by
        rw [serializeMembers_cons2]
        simp]
      show (match parseStringBody (escapeString k.data ++ '"' :: (':' :: (Json.serialize v ++
            ',' :: (serializeMembers (kv :: r) ++ '\x7d' :: rest)))) with
        | some (k2, ':' :: r2) =>
          (match parseVal f r2 with
           | some (v2, ',' :: r3) =>
               (parseMembers f r3).map (fun p => ((String.mk k2, v2) :: p.1, p.2))
           | some (v2, '\x7d' :: r3) => some ([(String.mk k2, v2)], r3)
           | _ => none)
        | _ => none) = some ((k, v) :: kv :: r, rest)
      rw [parseStringBody_escape]
      show (match parseVal f (Json.serialize v ++
            ',' :: (serializeMembers (kv :: r) ++ '\x7d' :: rest)) with
        | some (v2, ',' :: r3) =>
            (parseMembers f r3).map (fun p => ((String.mk k.data, v2) :: p.1, p.2))
        | some (v2, '\x7d' :: r3) => some ([(String.mk k.data, v2)], r3)
        | _ => none) = some ((k, v) :: kv :: r, rest)
      rw [parseVal_serialize v f _ hsv hro]
      show (parseMembers f (serializeMembers (kv :: r) ++ '\x7d' :: rest)).map
          (fun p => ((String.mk k.data, v) :: p.1, p.2)) = some ((k, v) :: kv :: r, rest)
      rw [parseMembers_serialize (kv :: r) f rest hsr]
      simp [string_mk_data]
termination_by fuel

end

theorem serialize_length_pos (j : Json) : 1 ≤ (Json.serialize j).length := by
  obtain ⟨c, cs, hc, _⟩ := serialize_head j
  rw [hc]
  simp

mutual

theorem jsize_le (j : Json) : jsize j + 1 ≤ 2 * (Json.serialize j).length := by
  cases j with
  | null => rw [serialize_null_eq]; simp [jsize]
  | bool b =>
      cases b with
      | true => rw [serialize_true_eq]; simp [jsize]
      | false => rw [serialize_false_eq]; simp [jsize]
  | int n =>
      have h1 := serialize_length_pos (.int n)
      have h2 : jsize (.int n) = 1 := by simp [jsize]
      omega
  | str s =>
      rw [serialize_str_eq]
      have h2 : jsize (.str s) = 1 := by simp [jsize]
      simp [h2]
  | arr xs =>
      have h := esize_le xs
      rw [serialize_arr_eq, jsize_arr_eq]
      simp
      omega
  | obj kvs =>
      have h := msize_le kvs
      rw [serialize_obj_eq, jsize_obj_eq]
      simp
      omega

theorem esize_le (xs : List Json) : esize xs ≤ 2 * (serializeElems xs).length + 1 := by
  match xs with
  | [] => rw [serializeElems_nil, esize_nil_eq]; simp
  | [x] =>
      have h := jsize_le x
      rw [serializeElems_single, esize_cons_eq, esize_nil_eq]
      omega
  | x :: y :: r =>
      have h1 := jsize_le x
      have h2 := esize_le (y :: r)
      rw [serializeElems_cons2, esize_cons_eq]
      simp
      omega

theorem msize_le (kvs : List (String × Json)) :
    msize kvs ≤ 2 * (serializeMembers kvs).length + 1 := by
  match kvs with
  | [] => rw [serializeMembers_nil, msize_nil_eq]; simp
  | [(k, v)] =>
      have h := jsize_le v
      rw [serializeMembers_single, msize_cons_eq, msize_nil_eq]
      simp
      omega
  | (k, v) :: kv :: r =>
      have h1 := jsize_le v
      have h2 := msize_le (kv :: r)
      rw [serializeMembers_cons2, msize_cons_eq]
      simp
      omega

end

/-- Model of `json.loads` over a character list: parse one JSON value and require
the whole input consumed. -/
def jsonParse (l : List Char) : Option Json :=
  (parseVal (2 * l.length) l).bind (fun p => if p.2 = [] then some p.1 else none)

/-- Parsing inverts serialization. -/
theorem jsonParse_serialize (j : Json) : jsonParse (Json.serialize j) = some j := by
  have hsz : jsize j ≤ 2 * (Json.serialize j).length := by
    have := jsize_le j
    omega
  have h := parseVal_serialize j (2 * (Json.serialize j).length) [] hsz (by simp [restOk])
  rw [List.append_nil] at h
  rw [jsonParse, h]
  simp

/-! ## The RPC client (`EngineInfo` in `service-app/utils.py`)

The HTTP transport is abstracted as an oracle: a `TransportResult`
describes what one `requests.post` call would do.  Request bodies do
not appear in the oracle because the remote is opaque; theorems
quantify over all oracles. -/

/-- One `requests.post` outcome: `exn` is any raised exception
(connection error, timeout, unexpected error); `ok ct parsed text` is
a response with content-type header `ct`, with `parsed` the value
`response.json()` would return (`none` when it would raise) and `text`
the raw body `response.text`. -/
inductive TransportResult where
  | exn : TransportResult
  | ok (contentType : String) (parsed : Option Json) (text : String) : TransportResult

/-- Model of Python `str.startswith` on the character lists of the
receiver and the candidate head (structurally recursive, so that
concrete instances evaluate). -/
def startswith : List Char → List Char → Bool
  | _, [] => true
  | [], _ :: _ => false
  | c :: s, d :: p => c == d && startswith s p

/-- Model of `EngineInfo.do_http_post_request`: returns the parsed JSON when the
content type starts with `application/json`, the raw text otherwise,
and `{}` when anything raises (all three `except` arms print and
return `{}`). -/
def do_http_post_request (t : TransportResult) : Json :=
  match t with
  | .exn => Json.obj []
  | .ok contentType parsed text =>
    if startswith contentType.data "application/json".data then
      match parsed with
      | some j => j
      | none => Json.obj []
    else Json.str text

/-- Shape of `do_http_post_request` on a response that did not raise. -/
theorem do_http_post_request_ok_eq (ct : String) (parsed : Option Json) (text : String) :
    do_http_post_request (.ok ct parsed text) =
      if startswith ct.data "application/json".data then
        (match parsed with | some j => j | none => Json.obj [])
      else Json.str text := rfl

/-- Model of `EngineInfo.failed_request_resp`: the sentinel failure envelope
(`"请求失败"` is "request failed"). -/
def failed_request_resp : Json :=
  Json.obj [("code", Json.str "E0000000500"), ("message", Json.str "请求失败")]

/-- The send-and-normalize pattern shared verbatim by every operation
of `EngineInfo` (`get_user_info`, `get_local_data_list`,
`get_partner_data_list`, `get_partner_data_columns`,
`report_task_info`, `report_audit_info`, `report_network_info`,
`report_api_server`): POST the built request body, and replace a falsy
response (`{}` from a failed transport, or an empty raw text) by
`failed_request_resp`. -/
def request_and_normalize (t : TransportResult) : Json :=
  let resp := do_http_post_request t
  if resp.truthy then resp else failed_request_resp

/-- The constant suffix appended to every method name. -/
def fixed_suffix : String :=
  ".0001100000000000000000000000000000000.lx0000000000000.trustbe.net"

/-- Model of `EngineInfo.build_request_param`, the request envelope builder.
`kwargs` is the keyword-argument mapping in insertion order. -/
def build_request_param (method : String) (kwargs : List (String × Json)) : Json :=
  Json.obj [("method", Json.str (method ++ fixed_suffix)),
            ("content", Json.obj [("param", Json.obj kwargs)])]

/-- Model of `EngineInfo.get_user_info` after building its fixed request body:
an instance of the shared pattern. -/
def get_user_info (t : TransportResult) : Json :=
  request_and_normalize t

/-- Model of `EngineInfo.report_file_to_center_oss`.  `fileBytes` is the
content of the local file (`none`: `FileNotFoundError`).  Returns the
result envelope together with the list of request bodies sent over
the network (empty when rejected locally).  The Python messages carry
interpolated details; the model keeps their fixed heads. -/
def report_file_to_center_oss (t : TransportResult) (fileBytes : Option (List Nat))
    (file_name : String) : Json × List Json :=
  match fileBytes with
  | none =>
      (Json.obj [("code", Json.str "E0000000404"), ("message", Json.str "文件不存在")], [])
  | some data =>
    if data.length > 5 * 1024 * 1024 then
      (Json.obj [("code", Json.str "E0000000400"),
                 ("message", Json.str "文件大小超出限制")], [])
    else
      let b64_str := String.mk (b64encodeBytes data)
      let body := build_request_param "upload.file.engine.paas"
        [("fileName", Json.str file_name), ("content", Json.str b64_str)]
      let resp := do_http_post_request t
      (if resp.truthy then resp else failed_request_resp, [body])

/-! ## The bulk export routine (`EngineInfo.get_local_data_to_csv`)

The oracle `remote : Nat → TransportResult` gives the outcome of the
`k`-th HTTP call of one export run (call `0` is the initial
metadata request).  Besides the Python function's return value, the
model returns the trace of request bodies sent and of the page
appends made to the CSV file: each append records the header written
(`some columns` on the first page, `none` afterwards) and the decoded
page payload. -/

/-- The request body of a page fetch (`limit` is hard-coded 1000). -/
def pageRequestBody (metano : String) (offset : Nat) : Json :=
  build_request_param "range.delivery.paas"
    [("metano", Json.str metano), ("limit", Json.int 1000), ("offset", Json.int offset)]

/-- Decoding of a page's payload: `base64.b64decode` + `json.loads` applied to the
`content.content` value; `none` models the raised exception on a
non-string value, bad base64, bad UTF-8 or bad JSON. -/
def decodeContent : Json → Option Json
  | .str s => (b64decodeChars s.data).bind (fun bytes => (utf8Decode bytes).bind jsonParse)
  | _ => none

/-- Reading `resp["content"]["content"]` followed by decoding. -/
def pageRows (resp : Json) : Option Json :=
  (resp.getItem "content").bind (fun c => (c.getItem "content").bind decodeContent)

/-- Reading `resp["content"]["total"]`, required to be an integer (a
non-integer would raise in the loop comparison). -/
def extractTotal (resp : Json) : Option Int :=
  ((resp.getItem "content").bind (fun c => c.getItem "total")).bind
    (fun t => match t with | .int n => some n | _ => none)

/-- Reading `[col["name"] for col in resp["content"]["columns"]]`. -/
def extractColumns (resp : Json) : Option (List Json) :=
  ((resp.getItem "content").bind (fun c => c.getItem "columns")).bind
    (fun cols => match cols with
      | .arr items => items.mapM (fun col => col.getItem "name")
      | _ => none)

/-- The success envelope returned after the loop (`"数据导出成功"` is
"data export succeeded"). -/
def export_success_resp (filename : String) : Json :=
  Json.obj [("code", Json.str "E0000000000"), ("message", Json.str "数据导出成功"),
            ("filename", Json.str filename)]

/-- The failure envelope built by the `except` arm (`"数据处理失败"` is
"data processing failed"; Python appends `str(e)`). -/
def data_process_fail_resp : Json :=
  Json.obj [("code", Json.str "E0000000500"), ("message", Json.str "数据处理失败")]

/-- Result of an export run: the returned envelope, the request bodies
sent, and the page appends performed on the output file. -/
structure ExportRun where
  result : Json
  requests : List Json
  writes : List (Option (List Json) × Json)

/-- The `while offset * limit < total` loop of `get_local_data_to_csv`.
`offset` is the current batch index, `k` the index of the next HTTP
call in this run. -/
def exportLoop (remote : Nat → TransportResult) (metano : String) (total : Int)
    (columns : List Json) (csv : String) (offset k : Nat) : ExportRun :=
  if h : (offset : Int) * 1000 < total then
    let body := pageRequestBody metano offset
    let resp := do_http_post_request (remote k)
    match pageRows resp with
    | none => ⟨data_process_fail_resp, [body], []⟩
    | some rows =>
        let hdr := if offset = 0 then some columns else none
        let rec' := exportLoop remote metano total columns csv (offset + 1) (k + 1)
        ⟨rec'.result, body :: rec'.requests, (hdr, rows) :: rec'.writes⟩
  else ⟨export_success_resp csv, [], []⟩
termination_by (total - (offset : Int) * 1000).toNat
decreasing_by omega

/-- Python `output_filename or f"{metano}.csv"`: an absent or empty
(falsy) argument selects the default name. -/
def csvFileName (metano : String) : Option String → String
  | some s => if s.isEmpty then metano ++ ".csv" else s
  | none => metano ++ ".csv"

/-- Model of `EngineInfo.get_local_data_to_csv`: issue the initial request at
offset 0, normalize an empty transport result, read `total` and
`columns` (any failure there is caught and reported as
`data_process_fail_resp`), then run the paging loop. -/
def get_local_data_to_csv (remote : Nat → TransportResult) (metano : String)
    (output_filename : Option String) : ExportRun :=
  let body0 := pageRequestBody metano 0
  let resp := do_http_post_request (remote 0)
  if resp.truthy then
    match extractTotal resp, extractColumns resp with
    | some total, some columns =>
        let run := exportLoop remote metano total columns
          (csvFileName metano output_filename) 0 1
        ⟨run.result, body0 :: run.requests, run.writes⟩
    | _, _ => ⟨data_process_fail_resp, [body0], []⟩
  else ⟨failed_request_resp, [body0], []⟩

/-- The rows a sequence of page appends puts into the CSV file, in
order: a page payload is a JSON array of row-records. -/
def writtenRows (writes : List (Option (List Json) × Json)) : List Json :=
  (writes.map (fun w => match w.2 with | .arr xs => xs | j => [j])).flatten

/-! ## Behaviour of the export loop -/

theorem exportLoop_stop (remote : Nat → TransportResult) (metano : String) (total : Int)
    (columns : List Json) (csv : String) (offset k : Nat)
    (h : ¬ ((offset : Int) * 1000 < total)) :
    exportLoop remote metano total columns csv offset k =
      ⟨export_success_resp csv, [], []⟩ := by
  rw [exportLoop]
  simp [dif_neg h]

theorem exportLoop_fail (remote : Nat → TransportResult) (metano : String) (total : Int)
    (columns : List Json) (csv : String) (offset k : Nat)
    (h : (offset : Int) * 1000 < total)
    (hsp : pageRows (do_http_post_request (remote k)) = none) :
    exportLoop remote metano total columns csv offset k =
      ⟨data_process_fail_resp, [pageRequestBody metano offset], []⟩ := by
  rw [exportLoop]
  simp [dif_pos h, hsp]

theorem exportLoop_ok (remote : Nat → TransportResult) (metano : String) (total : Int)
    (columns : List Json) (csv : String) (offset k : Nat) (rows : Json)
    (h : (offset : Int) * 1000 < total)
    (hsp : pageRows (do_http_post_request (remote k)) = some rows) :
    exportLoop remote metano total columns csv offset k =
      ⟨(exportLoop remote metano total columns csv (offset + 1) (k + 1)).result,
        pageRequestBody metano offset ::
          (exportLoop remote metano total columns csv (offset + 1) (k + 1)).requests,
        ((if offset = 0 then some columns else none), rows) ::
          (exportLoop remote metano total columns csv (offset + 1) (k + 1)).writes⟩ := by
  rw [exportLoop]
  simp [dif_pos h, hsp]

theorem export_success_ne_fail (csv : String) :
    export_success_resp csv ≠ data_process_fail_resp := by
  simp [export_success_resp, data_process_fail_resp]

/-- The loop returns either the success envelope or the local failure
envelope, nothing else. -/
theorem exportLoop_result_cases (remote : Nat → TransportResult) (metano : String)
    (total : Int) (columns : List Json) (csv : String) (offset k : Nat) :
    (exportLoop remote metano total columns csv offset k).result = export_success_resp csv ∨
    (exportLoop remote metano total columns csv offset k).result = data_process_fail_resp := by
  by_cases h : (offset : Int) * 1000 < total
  · cases hsp : pageRows (do_http_post_request (remote k)) with
    | none =>
        rw [exportLoop_fail remote metano total columns csv offset k h hsp]
        right
        rfl
    | some rows =>
        rw [exportLoop_ok remote metano total columns csv offset k rows h hsp]
        exact exportLoop_result_cases remote metano total columns csv (offset + 1) (k + 1)
  · rw [exportLoop_stop remote metano total columns csv offset k h]
    left
    rfl
termination_by (total - (offset : Int) * 1000).toNat
decreasing_by omega

/-- A successful loop sent exactly one request per page written; a
failed loop sent one more request than pages written. -/
theorem exportLoop_counts (remote : Nat → TransportResult) (metano : String)
    (total : Int) (columns : List Json) (csv : String) (offset k : Nat) :
    ((exportLoop remote metano total columns csv offset k).result = export_success_resp csv →
      (exportLoop remote metano total columns csv offset k).requests.length =
        (exportLoop remote metano total columns csv offset k).writes.length) ∧
    ((exportLoop remote metano total columns csv offset k).result = data_process_fail_resp →
      (exportLoop remote metano total columns csv offset k).requests.length =
        (exportLoop remote metano total columns csv offset k).writes.length + 1) := by
  by_cases h : (offset : Int) * 1000 < total
  · cases hsp : pageRows (do_http_post_request (remote k)) with
    | none =>
        rw [exportLoop_fail remote metano total columns csv offset k h hsp]
        constructor
        · intro hres
          exact absurd hres.symm (export_success_ne_fail csv)
        · intro _
          rfl
    | some rows =>
        rw [exportLoop_ok remote metano total columns csv offset k rows h hsp]
        have ih := exportLoop_counts remote metano total columns csv (offset + 1) (k + 1)
        constructor
        · intro hres
          simp only [List.length_cons]
          rw [ih.1 hres]
        · intro hres
          simp only [List.length_cons]
          rw [ih.2 hres]
  · rw [exportLoop_stop remote metano total columns csv offset k h]
    constructor
    · intro _
      rfl
    · intro hres
      exact absurd hres (export_success_ne_fail csv)
termination_by (total - (offset : Int) * 1000).toNat
decreasing_by omega

/-- The loop depends only on the oracle's answers from call `k` on:
the payload of any earlier call (in particular the initial metadata
call of an export run) is never consulted. -/
theorem exportLoop_congr (remote remote2 : Nat → TransportResult) (metano : String)
    (total : Int) (columns : List Json) (csv : String) (offset k : Nat)
    (hag : ∀ i, k ≤ i → remote i = remote2 i) :
    exportLoop remote metano total columns csv offset k =
      exportLoop remote2 metano total columns csv offset k := by
  have hk : remote k = remote2 k := hag k (Nat.le_refl k)
  by_cases h : (offset : Int) * 1000 < total
  · cases hsp : pageRows (do_http_post_request (remote2 k)) with
    | none =>
        rw [exportLoop_fail remote metano total columns csv offset k h (by rw [hk]; exact hsp),
          exportLoop_fail remote2 metano total columns csv offset k h hsp]
    | some rows =>
        rw [exportLoop_ok remote metano total columns csv offset k rows h
            (by rw [hk]; exact hsp),
          exportLoop_ok remote2 metano total columns csv offset k rows h hsp,
          exportLoop_congr remote remote2 metano total columns csv (offset + 1) (k + 1)
            (fun i hi => hag i (Nat.le_of_succ_le hi))]
  · rw [exportLoop_stop remote metano total columns csv offset k h,
      exportLoop_stop remote2 metano total columns csv offset k h]
termination_by (total - (offset : Int) * 1000).toNat
decreasing_by omega

/-- When at least one page is due, the first loop request is the page
request at the current offset. -/
theorem exportLoop_head_request (remote : Nat → TransportResult) (metano : String)
    (total : Int) (columns : List Json) (csv : String) (offset k : Nat)
    (h : (offset : Int) * 1000 < total) :
    ∃ t, (exportLoop remote metano total columns csv offset k).requests =
      pageRequestBody metano offset :: t := by
  cases hsp : pageRows (do_http_post_request (remote k)) with
  | none =>
      rw [exportLoop_fail remote metano total columns csv offset k h hsp]
      exact ⟨[], rfl⟩
  | some rows =>
      rw [exportLoop_ok remote metano total columns csv offset k rows h hsp]
      exact ⟨_, rfl⟩

/-- If the pages before batch `i` decode and batch `i` (still within
range) fails to decode, the loop returns the local failure envelope. -/
theorem exportLoop_fail_at (remote : Nat → TransportResult) (metano : String)
    (total : Int) (columns : List Json) (csv : String) (i : Nat) :
    ∀ (offset k : Nat), ((offset : Int) + (i : Int)) * 1000 < total →
    (∀ j < i, pageRows (do_http_post_request (remote (k + j))) ≠ none) →
    pageRows (do_http_post_request (remote (k + i))) = none →
    (exportLoop remote metano total columns csv offset k).result =
      data_process_fail_resp := by
  induction i with
  | zero =>
      intro offset k hin _ hfail
      rw [exportLoop_fail remote metano total columns csv offset k (by push_cast at hin ⊢; omega)
        (by simpa using hfail)]
  | succ i ih =>
      intro offset k hin hok hfail
      have h0 : (offset : Int) * 1000 < total := by push_cast at hin ⊢; omega
      cases hsp : pageRows (do_http_post_request (remote k)) with
      | none => exact absurd hsp (by simpa using hok 0 (Nat.succ_pos i))
      | some rows =>
          rw [exportLoop_ok remote metano total columns csv offset k rows h0 hsp]
          exact ih (offset + 1) (k + 1) (by push_cast at hin ⊢; omega)
            (fun j hj => by
              have := hok (j + 1) (by omega)
              simpa [Nat.add_assoc, Nat.add_comm 1 j] using this)
            (by
              have : k + 1 + i = k + (i + 1) := by omega
              rw [this]
              exact hfail)

/-! ## Behaviour of `get_local_data_to_csv` around the loop -/

theorem export_start_fail (remote : Nat → TransportResult) (metano : String)
    (ofn : Option String) (h : (do_http_post_request (remote 0)).truthy = false) :
    get_local_data_to_csv remote metano ofn =
      ⟨failed_request_resp, [pageRequestBody metano 0], []⟩ := by
  rw [get_local_data_to_csv]
  simp [h]

theorem export_extract_total_fail (remote : Nat → TransportResult) (metano : String)
    (ofn : Option String) (h1 : (do_http_post_request (remote 0)).truthy = true)
    (h2 : extractTotal (do_http_post_request (remote 0)) = none) :
    get_local_data_to_csv remote metano ofn =
      ⟨data_process_fail_resp, [pageRequestBody metano 0], []⟩ := by
  rw [get_local_data_to_csv]
  simp [h1, h2]

theorem export_extract_columns_fail (remote : Nat → TransportResult) (metano : String)
    (ofn : Option String) (total : Int)
    (h1 : (do_http_post_request (remote 0)).truthy = true)
    (h2 : extractTotal (do_http_post_request (remote 0)) = some total)
    (h3 : extractColumns (do_http_post_request (remote 0)) = none) :
    get_local_data_to_csv remote metano ofn =
      ⟨data_process_fail_resp, [pageRequestBody metano 0], []⟩ := by
  rw [get_local_data_to_csv]
  simp [h1, h2, h3]

theorem export_run (remote : Nat → TransportResult) (metano : String)
    (ofn : Option String) (total : Int) (columns : List Json)
    (h1 : (do_http_post_request (remote 0)).truthy = true)
    (h2 : extractTotal (do_http_post_request (remote 0)) = some total)
    (h3 : extractColumns (do_http_post_request (remote 0)) = some columns) :
    get_local_data_to_csv remote metano ofn =
      ⟨(exportLoop remote metano total columns (csvFileName metano ofn) 0 1).result,
        pageRequestBody metano 0 ::
          (exportLoop remote metano total columns (csvFileName metano ofn) 0 1).requests,
        (exportLoop remote metano total columns (csvFileName metano ofn) 0 1).writes⟩ := by
  rw [get_local_data_to_csv]
  simp [h1, h2, h3]

/-! ## The page content format and its round trip -/

/-- Modelled from the spec: the page content format produced by the
remote platform, which is not part of this repository — the base64 of
the UTF-8 bytes of the JSON serialization of the ordered row list. -/
def page_content_encode (rows : List Json) : String :=
  String.mk (b64encodeBytes (utf8Encode (Json.serialize (Json.arr rows))))

/-- The export routine's decoder recovers the rows from the encoded
page content. -/
theorem decode_page_content_encode (rows : List Json) :
    decodeContent (Json.str (page_content_encode rows)) = some (Json.arr rows) := by
  show (b64decodeChars (String.mk
      (b64encodeBytes (utf8Encode (Json.serialize (Json.arr rows))))).data).bind
      (fun bytes => (utf8Decode bytes).bind jsonParse) = some (Json.arr rows)
  rw [show (String.mk (b64encodeBytes (utf8Encode (Json.serialize (Json.arr rows))))).data =
      b64encodeBytes (utf8Encode (Json.serialize (Json.arr rows))) from rfl]
  rw [b64decode_b64encode _ (utf8Encode_lt_256 _)]
  simp only [Option.some_bind]
  rw [utf8Decode_utf8Encode]
  simp only [Option.some_bind]
  exact jsonParse_serialize (Json.arr rows)

/-! ## Claims -/

/-- C6: for every finite ordered sequence of row-records, encoding it
to the page content format (base64 of its UTF-8 JSON serialization,
modelled from the spec since the remote encoder is not part of this
repository) and then applying the export routine's decoder
(`base64.b64decode` followed by `json.loads`, `utils.py` lines
419-422, embodied in `decodeContent`) yields the original ordered
rows. -/
theorem claim_C6_roundtrip (rows : List Json) :
    decodeContent (Json.str (page_content_encode rows)) = some (Json.arr rows) :=
  decode_page_content_encode rows

/-- The key list of a dict value. -/
def Json.objKeys : Json → Option (List String)
  | .obj kvs => some (kvs.map Prod.fst)
  | _ => none

/-- C4: `build_request_param` is a pure function whose output carries
`content.param` exactly equal to the input mapping, `method` equal to
the operation name with the fixed suffix appended, and no keys other
than `method` and `content` (whose dict holds only `param`). -/
theorem claim_C4_envelope (method : String) (kwargs : List (String × Json)) :
    (build_request_param method kwargs).getItem "method" =
      some (Json.str (method ++ fixed_suffix)) ∧
    ((build_request_param method kwargs).getItem "content").bind
      (fun c => c.getItem "param") = some (Json.obj kwargs) ∧
    (build_request_param method kwargs).objKeys = some ["method", "content"] ∧
    ((build_request_param method kwargs).getItem "content").bind Json.objKeys =
      some ["param"] := by
  refine ⟨?_, ?_, ?_, ?_⟩ <;>
    simp +decide [build_request_param, Json.getItem, Json.lookup, Json.objKeys]

/-- A transport failure: the POST raised (connection error, timeout,
unexpected exception), or the body was not JSON although the
`application/json` content type made `response.json()` run (and
raise). -/
def transportFailure : TransportResult → Prop
  | .exn => True
  | .ok ct parsed _ => startswith ct.data "application/json".data = true ∧ parsed = none

/-- C3: on any transport failure, an `EngineInfo` operation returns
the sentinel failure envelope — code `E0000000500` with message
`请求失败` ("request failed") — and, the embedding being total, no
exception reaches the caller.  `do_http_post_request` itself returns
`{}` from its `except` arms; every operation wraps it in the
falsy-check of `request_and_normalize`, which replaces `{}` by
`failed_request_resp`. -/
theorem claim_C3_transport_failure (t : TransportResult) (h : transportFailure t) :
    request_and_normalize t =
      Json.obj [("code", Json.str "E0000000500"), ("message", Json.str "请求失败")] := by
  cases t with
  | exn => rfl
  | ok ct parsed text =>
      obtain ⟨hct, hparsed⟩ := h
      subst hparsed
      show (if (do_http_post_request (.ok ct none text)).truthy then
        do_http_post_request (.ok ct none text) else failed_request_resp) = _
      rw [show do_http_post_request (.ok ct none text) =
        if startswith ct.data "application/json".data
        then Json.obj [] else Json.str text from rfl]
      rw [if_pos hct]
      rfl

theorem claim_C3_transport_failure_witness :
    request_and_normalize .exn =
      Json.obj [("code", Json.str "E0000000500"), ("message", Json.str "请求失败")] :=
  claim_C3_transport_failure .exn trivial

/-- C9: when the response's content type does not start with
`application/json`, `do_http_post_request` returns the raw text body
as a plain string; only when it does start with `application/json` is
the parsed JSON envelope returned. -/
theorem claim_C9_content_type (ct : String) (parsed : Option Json) (text : String) :
    (¬ startswith ct.data "application/json".data = true →
      do_http_post_request (.ok ct parsed text) = Json.str text) ∧
    (∀ j, startswith ct.data "application/json".data = true → parsed = some j →
      do_http_post_request (.ok ct parsed text) = j) := by
  constructor
  · intro h
    rw [do_http_post_request_ok_eq, if_neg h]
  · intro j h hp
    subst hp
    rw [do_http_post_request_ok_eq, if_pos h]

theorem claim_C9_content_type_witness :
    do_http_post_request (.ok "text/html" (some (Json.int 1)) "oops") = Json.str "oops" ∧
    do_http_post_request (.ok "application/json" (some (Json.int 1)) "x") = Json.int 1 :=
  ⟨(claim_C9_content_type "text/html" (some (Json.int 1)) "oops").1 (by decide),
   (claim_C9_content_type "application/json" (some (Json.int 1)) "x").2 (Json.int 1)
     (by decide) rfl⟩

/-- Shape of `report_file_to_center_oss` on a readable file. -/
theorem report_file_shape (t : TransportResult) (data : List Nat) (name : String) :
    report_file_to_center_oss t (some data) name =
      if data.length > 5 * 1024 * 1024 then
        (Json.obj [("code", Json.str "E0000000400"),
                   ("message", Json.str "文件大小超出限制")], [])
      else
        (if (do_http_post_request t).truthy then do_http_post_request t
          else failed_request_resp,
         [build_request_param "upload.file.engine.paas"
            [("fileName", Json.str name),
             ("content", Json.str (String.mk (b64encodeBytes data)))]]) := rfl

/-- C8: `report_file_to_center_oss` rejects a file strictly larger
than 5 MB with the local size-limit error `E0000000400` and performs
no network call; for a file within the limit it performs exactly one
network call whose `content` parameter is a base64 string decoding to
the original bytes (in particular, to the original length). -/
theorem claim_C8_upload (t : TransportResult) (data : List Nat) (name : String) :
    (data.length > 5 * 1024 * 1024 →
      report_file_to_center_oss t (some data) name =
        (Json.obj [("code", Json.str "E0000000400"),
                   ("message", Json.str "文件大小超出限制")], [])) ∧
    (data.length ≤ 5 * 1024 * 1024 → (∀ b ∈ data, b < 256) →
      (report_file_to_center_oss t (some data) name).2 =
        [build_request_param "upload.file.engine.paas"
          [("fileName", Json.str name),
           ("content", Json.str (String.mk (b64encodeBytes data)))]] ∧
      b64decodeChars (String.mk (b64encodeBytes data)).data = some data) := by
  constructor
  · intro h
    rw [report_file_shape, if_pos h]
  · intro h hb
    constructor
    · rw [report_file_shape, if_neg (by omega)]
    · rw [show (String.mk (b64encodeBytes data)).data = b64encodeBytes data from rfl]
      exact b64decode_b64encode data hb

theorem claim_C8_upload_witness :
    (report_file_to_center_oss .exn (some (List.replicate 6291456 65)) "big.bin" =
      (Json.obj [("code", Json.str "E0000000400"),
                 ("message", Json.str "文件大小超出限制")], [])) ∧
    ((report_file_to_center_oss .exn (some (List.replicate 4194304 65)) "ok.bin").2 =
      [build_request_param "upload.file.engine.paas"
        [("fileName", Json.str "ok.bin"),
         ("content", Json.str (String.mk (b64encodeBytes (List.replicate 4194304 65))))]] ∧
      b64decodeChars (String.mk (b64encodeBytes (List.replicate 4194304 65))).data =
        some (List.replicate 4194304 65)) :=
  ⟨(claim_C8_upload .exn (List.replicate 6291456 65) "big.bin").1
     (by rw [List.length_replicate]; omega),
   (claim_C8_upload .exn (List.replicate 4194304 65) "ok.bin").2
     (by rw [List.length_replicate]; omega)
     (fun b hb => by
       rw [List.eq_of_mem_replicate hb]
       omega)⟩

/-- C7: when the remote reports `total = 0`, the export loop body
never runs: no page is appended to the output, no exception occurs
(the embedding is total), the only request sent is the initial one,
and the success envelope is returned. -/
theorem claim_C7_total_zero (remote : Nat → TransportResult) (metano : String)
    (ofn : Option String) (columns : List Json)
    (h1 : (do_http_post_request (remote 0)).truthy = true)
    (h2 : extractTotal (do_http_post_request (remote 0)) = some 0)
    (h3 : extractColumns (do_http_post_request (remote 0)) = some columns) :
    get_local_data_to_csv remote metano ofn =
      ⟨export_success_resp (csvFileName metano ofn), [pageRequestBody metano 0], []⟩ := by
  rw [export_run remote metano ofn 0 columns h1 h2 h3,
    exportLoop_stop remote metano 0 columns (csvFileName metano ofn) 0 1 (by omega)]

/-- The simulated remote for the `total = 0` witness: a well-formed
success envelope whose content reports no records. -/
def c7Remote : Nat → TransportResult := fun _ =>
  .ok "application/json"
    (some (Json.obj [("code", Json.str "E0000000000"), ("message", Json.str "请求成功"),
      ("cause", Json.null),
      ("content", Json.obj [("total", Json.int 0), ("columns", Json.arr [])])])) ""

theorem claim_C7_total_zero_witness :
    get_local_data_to_csv c7Remote "m" none =
      ⟨export_success_resp (csvFileName "m" none), [pageRequestBody "m" 0], []⟩ :=
  claim_C7_total_zero c7Remote "m" none [] rfl rfl rfl

/-- A first-page envelope with the non-success code `E0000000001`
whose content nevertheless carries `total`/`columns`. -/
def c2Resp : Json :=
  Json.obj [("code", Json.str "E0000000001"), ("message", Json.str "用户未登录"),
    ("cause", Json.null),
    ("content", Json.obj [("total", Json.int 0), ("columns", Json.arr [])])]

/-- The simulated remote returning `c2Resp` to every call. -/
def c2Remote : Nat → TransportResult := fun _ => .ok "application/json" (some c2Resp) ""

/-- C2 counterexample: `get_local_data_to_csv` never inspects `code`.
On a first-page envelope whose `code` is the non-success
`E0000000001` but whose content carries `total`/`columns`, the export
neither aborts nor returns that envelope: it proceeds and returns its
own success envelope. -/
theorem claim_C2_counterexample :
    c2Resp.getItem "code" = some (Json.str "E0000000001") ∧
    (get_local_data_to_csv c2Remote "m" none).result =
      export_success_resp (csvFileName "m" none) ∧
    (get_local_data_to_csv c2Remote "m" none).result ≠ c2Resp := by
  refine ⟨by simp +decide [c2Resp, Json.getItem, Json.lookup], ?_, ?_⟩
  · rw [export_run c2Remote "m" none 0 [] rfl rfl rfl,
      exportLoop_stop c2Remote "m" 0 [] (csvFileName "m" none) 0 1 (by omega)]
  · rw [export_run c2Remote "m" none 0 [] rfl rfl rfl,
      exportLoop_stop c2Remote "m" 0 [] (csvFileName "m" none) 0 1 (by omega)]
    simp +decide [export_success_resp, c2Resp, csvFileName]

/-- C2 amended: the export does not inspect the envelope's `code`.
When the first response is truthy but its content does not yield an
integer `total` (the typical shape of a remote failure envelope,
whose `content` is `None`), the export aborts after the initial
request only — but returns the locally built failure envelope with
code `E0000000500`, never the remote envelope itself. -/
theorem claim_C2_amended_behavior (remote : Nat → TransportResult) (metano : String)
    (ofn : Option String)
    (h1 : (do_http_post_request (remote 0)).truthy = true)
    (h2 : extractTotal (do_http_post_request (remote 0)) = none) :
    get_local_data_to_csv remote metano ofn =
      ⟨data_process_fail_resp, [pageRequestBody metano 0], []⟩ :=
  export_extract_total_fail remote metano ofn h1 h2

/-- The simulated remote for the C2 amended witness: a non-success
envelope with `content: null`, as the platform returns on failure. -/
def c2bRemote : Nat → TransportResult := fun _ =>
  .ok "application/json"
    (some (Json.obj [("code", Json.str "E0000000001"), ("message", Json.str "用户未登录"),
      ("cause", Json.null), ("content", Json.null)])) ""

theorem claim_C2_amended_behavior_witness :
    get_local_data_to_csv c2bRemote "m" none =
      ⟨data_process_fail_resp, [pageRequestBody "m" 0], []⟩ :=
  claim_C2_amended_behavior c2bRemote "m" none rfl rfl

/-- C5: if, at some batch `i` still within range, the page response's
`content.content` fails to decode (bad base64, bad JSON, missing key,
non-string value — all modelled by `pageRows` returning `none`) while
the earlier batches decoded, the export returns the locally built
failure envelope with a code/message pair; the embedding is total, so
nothing is re-raised. -/
theorem claim_C5_decode_failure (remote : Nat → TransportResult) (metano : String)
    (ofn : Option String) (total : Int) (columns : List Json) (i : Nat)
    (h1 : (do_http_post_request (remote 0)).truthy = true)
    (h2 : extractTotal (do_http_post_request (remote 0)) = some total)
    (h3 : extractColumns (do_http_post_request (remote 0)) = some columns)
    (hin : ((i : Int)) * 1000 < total)
    (hok : ∀ j < i, pageRows (do_http_post_request (remote (1 + j))) ≠ none)
    (hfail : pageRows (do_http_post_request (remote (1 + i))) = none) :
    (get_local_data_to_csv remote metano ofn).result = data_process_fail_resp := by
  rw [export_run remote metano ofn total columns h1 h2 h3]
  exact exportLoop_fail_at remote metano total columns (csvFileName metano ofn) i 0 1
    (by push_cast at hin ⊢; omega) hok hfail

/-- The simulated remote for the C5 witness: a valid metadata
envelope reporting one record, then a page whose `content.content` is
the string `"!!!"`, which is not base64. -/
def c5Remote : Nat → TransportResult
  | 0 => .ok "application/json"
      (some (Json.obj [("code", Json.str "E0000000000"),
        ("content", Json.obj [("total", Json.int 1), ("columns", Json.arr [])])])) ""
  | _ + 1 => .ok "application/json"
      (some (Json.obj [("code", Json.str "E0000000000"),
        ("content", Json.obj [("content", Json.str "!!!")])])) ""

theorem claim_C5_decode_failure_witness :
    (get_local_data_to_csv c5Remote "m" none).result = data_process_fail_resp :=
  claim_C5_decode_failure c5Remote "m" none 1 [] 0 rfl rfl rfl (by omega)
    (fun j hj => absurd hj (Nat.not_lt_zero j)) rfl

/-! ## The `total = 2500` scenario (claims C1 and C10) -/

/-- The 2500 rows of the simulated dataset, in order. -/
def c1Rows : List Json :=
  (List.range 2500).map (fun i => Json.obj [("id", Json.int (Int.ofNat i))])

/-- The slice of rows the remote serves for batch `o` (page size
1000). -/
def c1Page (o : Nat) : List Json := (c1Rows.drop (o * 1000)).take 1000

/-- The column descriptors of the simulated dataset. -/
def c1Columns : List Json := [Json.str "id"]

/-- The page envelope the remote returns for batch `o`. -/
def c1PageResp (o : Nat) : Json :=
  Json.obj [("code", Json.str "E0000000000"),
    ("content", Json.obj [("content", Json.str (page_content_encode (c1Page o)))])]

/-- The simulated remote reporting `total = 2500`: call 0 answers the
metadata envelope (whose own page payload the export discards), call
`k + 1` answers the page envelope for batch `k`. -/
def c1Remote : Nat → TransportResult
  | 0 => .ok "application/json"
      (some (Json.obj [("code", Json.str "E0000000000"),
        ("content", Json.obj [("total", Json.int 2500),
          ("columns", Json.arr [Json.obj [("name", Json.str "id")]]),
          ("content", Json.str "discarded-initial-payload")])])) ""
  | k + 1 => .ok "application/json" (some (c1PageResp k)) ""

theorem c1_page_rows (o : Nat) :
    pageRows (c1PageResp o) = some (Json.arr (c1Page o)) := by
  show ((c1PageResp o).getItem "content").bind
      (fun c => (c.getItem "content").bind decodeContent) = _
  rw [show (c1PageResp o).getItem "content" =
      some (Json.obj [("content", Json.str (page_content_encode (c1Page o)))]) from rfl]
  simp only [Option.some_bind]
  rw [show (Json.obj [("content", Json.str (page_content_encode (c1Page o)))]).getItem
      "content" = some (Json.str (page_content_encode (c1Page o))) from rfl]
  simp only [Option.some_bind]
  exact decode_page_content_encode (c1Page o)

/-- Full characterization of the export run against `c1Remote`: four
requests go out — the initial metadata request at offset 0, then the
three loop page requests at offsets 0, 1 and 2 — and the three pages
are appended in order, the header with the first. -/
theorem c1_export_eq :
    get_local_data_to_csv c1Remote "m" none =
      ⟨export_success_resp (csvFileName "m" none),
        [pageRequestBody "m" 0, pageRequestBody "m" 0,
          pageRequestBody "m" 1, pageRequestBody "m" 2],
        [(some c1Columns, Json.arr (c1Page 0)), (none, Json.arr (c1Page 1)),
          (none, Json.arr (c1Page 2))]⟩ := by
  have hsp0 : pageRows (do_http_post_request (c1Remote 1)) = some (Json.arr (c1Page 0)) :=
    c1_page_rows 0
  have hsp1 : pageRows (do_http_post_request (c1Remote 2)) = some (Json.arr (c1Page 1)) :=
    c1_page_rows 1
  have hsp2 : pageRows (do_http_post_request (c1Remote 3)) = some (Json.arr (c1Page 2)) :=
    c1_page_rows 2
  rw [export_run c1Remote "m" none 2500 c1Columns rfl rfl rfl,
    exportLoop_ok c1Remote "m" 2500 c1Columns (csvFileName "m" none) 0 1 (Json.arr (c1Page 0))
      (by omega) hsp0]
  rw [show ((0 : Nat) + 1) = 1 from rfl, show ((1 : Nat) + 1) = 2 from rfl]
  rw [exportLoop_ok c1Remote "m" 2500 c1Columns (csvFileName "m" none) 1 2 (Json.arr (c1Page 1))
      (by omega) hsp1]
  rw [show ((1 : Nat) + 1) = 2 from rfl, show ((2 : Nat) + 1) = 3 from rfl]
  rw [exportLoop_ok c1Remote "m" 2500 c1Columns (csvFileName "m" none) 2 3 (Json.arr (c1Page 2))
      (by omega) hsp2]
  rw [show ((2 : Nat) + 1) = 3 from rfl, show ((3 : Nat) + 1) = 4 from rfl]
  rw [exportLoop_stop c1Remote "m" 2500 c1Columns (csvFileName "m" none) 3 4
      (by omega)]
  rfl

theorem c1_pages_concat :
    c1Page 0 ++ (c1Page 1 ++ (c1Page 2 ++ [])) = c1Rows := by
  have hlen : c1Rows.length = 2500 := by
    simp only [c1Rows, List.length_map, List.length_range]
  have h2 : c1Page 2 = c1Rows.drop 2000 := by
    rw [c1Page]
    exact List.take_of_length_le (by simp [hlen])
  have h1 : c1Page 1 ++ c1Rows.drop 2000 = c1Rows.drop 1000 := by
    rw [c1Page, show (2000 : Nat) = 1000 + 1000 from rfl, ← List.drop_drop]
    exact List.take_append_drop 1000 (c1Rows.drop 1000)
  have h0 : c1Page 0 = c1Rows.take 1000 := by
    rw [c1Page]
    simp
  rw [List.append_nil, h2, h1, h0]
  exact List.take_append_drop 1000 c1Rows

/-- C1 counterexample: against the `total = 2500` remote the export
issues four requests, not three — the initial metadata request at
offset 0 and the three loop page requests. -/
theorem claim_C1_counterexample :
    (get_local_data_to_csv c1Remote "m" none).requests.length ≠ 3 ∧
    (get_local_data_to_csv c1Remote "m" none).requests.length = 4 := by
  rw [c1_export_eq]
  exact ⟨by decide, rfl⟩

/-- C1 amended: with the remote reporting `total = 2500` and page
size 1000, the export issues exactly four page requests — the initial
metadata request at offset 0, then the loop requests at offsets 0, 1
and 2 — and the rows appended to the output file are the 2500 remote
rows concatenated in order (the initial request's payload is not
appended). -/
theorem claim_C1_amended_run :
    get_local_data_to_csv c1Remote "m" none =
      ⟨export_success_resp (csvFileName "m" none),
        [pageRequestBody "m" 0, pageRequestBody "m" 0,
          pageRequestBody "m" 1, pageRequestBody "m" 2],
        [(some c1Columns, Json.arr (c1Page 0)), (none, Json.arr (c1Page 1)),
          (none, Json.arr (c1Page 2))]⟩ ∧
    writtenRows (get_local_data_to_csv c1Remote "m" none).writes = c1Rows := by
  refine ⟨c1_export_eq, ?_⟩
  rw [c1_export_eq]
  show c1Page 0 ++ (c1Page 1 ++ (c1Page 2 ++ [])) = c1Rows
  exact c1_pages_concat

/-- C10: in every export run with `total > 0`, the page at offset 0
is requested twice — the initial metadata request and the first loop
iteration send the same request body; the initial call's row payload
is discarded (two remotes agreeing on calls from 1 on, and agreeing
on the metadata `total`/`columns` of call 0 but with arbitrary
payloads there, produce identical appends and results); and on
success exactly one more request was sent than pages were written. -/
theorem claim_C10_initial_refetch (remote remote2 : Nat → TransportResult) (metano : String)
    (ofn : Option String) (total : Int) (columns : List Json)
    (h1 : (do_http_post_request (remote 0)).truthy = true)
    (h2 : extractTotal (do_http_post_request (remote 0)) = some total)
    (h3 : extractColumns (do_http_post_request (remote 0)) = some columns)
    (h1' : (do_http_post_request (remote2 0)).truthy = true)
    (h2' : extractTotal (do_http_post_request (remote2 0)) = some total)
    (h3' : extractColumns (do_http_post_request (remote2 0)) = some columns)
    (hag : ∀ i, 1 ≤ i → remote i = remote2 i)
    (hpos : 0 < total) :
    (get_local_data_to_csv remote metano ofn).writes =
      (get_local_data_to_csv remote2 metano ofn).writes ∧
    (get_local_data_to_csv remote metano ofn).result =
      (get_local_data_to_csv remote2 metano ofn).result ∧
    (∃ t, (get_local_data_to_csv remote metano ofn).requests =
      pageRequestBody metano 0 :: pageRequestBody metano 0 :: t) ∧
    ((get_local_data_to_csv remote metano ofn).result =
        export_success_resp (csvFileName metano ofn) →
      (get_local_data_to_csv remote metano ofn).requests.length =
        (get_local_data_to_csv remote metano ofn).writes.length + 1) := by
  rw [export_run remote metano ofn total columns h1 h2 h3,
    export_run remote2 metano ofn total columns h1' h2' h3']
  have hcongr := exportLoop_congr remote remote2 metano total columns
    (csvFileName metano ofn) 0 1 hag
  have hcond : ((0 : Nat) : Int) * 1000 < total := by push_cast; omega
  refine ⟨by rw [hcongr], by rw [hcongr], ?_, ?_⟩
  · obtain ⟨t, ht⟩ := exportLoop_head_request remote metano total columns
      (csvFileName metano ofn) 0 1 hcond
    exact ⟨t, by rw [ht]⟩
  · intro hres
    have hc := (exportLoop_counts remote metano total columns
      (csvFileName metano ofn) 0 1).1 hres
    simp only [List.length_cons]
    rw [hc]

/-- The metadata envelope of the C10 witness: one record, no columns,
and a call-0 page payload that differs between the two oracles. -/
def c10Meta (payload : String) : Json :=
  Json.obj [("code", Json.str "E0000000000"),
    ("content", Json.obj [("total", Json.int 1), ("columns", Json.arr []),
      ("content", Json.str payload)])]

/-- The page envelope both C10 witness oracles serve for the loop. -/
def c10PageResp : Json :=
  Json.obj [("code", Json.str "E0000000000"),
    ("content", Json.obj [("content", Json.str (page_content_encode [Json.int 7]))])]

def c10RemoteA : Nat → TransportResult
  | 0 => .ok "application/json" (some (c10Meta "AAAA")) ""
  | _ + 1 => .ok "application/json" (some c10PageResp) ""

def c10RemoteB : Nat → TransportResult
  | 0 => .ok "application/json" (some (c10Meta "BBBB")) ""
  | _ + 1 => .ok "application/json" (some c10PageResp) ""

theorem claim_C10_initial_refetch_witness :
    (get_local_data_to_csv c10RemoteA "m" none).writes =
      (get_local_data_to_csv c10RemoteB "m" none).writes ∧
    (get_local_data_to_csv c10RemoteA "m" none).result =
      (get_local_data_to_csv c10RemoteB "m" none).result ∧
    (∃ t, (get_local_data_to_csv c10RemoteA "m" none).requests =
      pageRequestBody "m" 0 :: pageRequestBody "m" 0 :: t) ∧
    ((get_local_data_to_csv c10RemoteA "m" none).result =
        export_success_resp (csvFileName "m" none) →
      (get_local_data_to_csv c10RemoteA "m" none).requests.length =
        (get_local_data_to_csv c10RemoteA "m" none).writes.length + 1) :=
  claim_C10_initial_refetch c10RemoteA c10RemoteB "m" none 1 []
    rfl rfl rfl rfl rfl rfl
    (fun i hi => by
      cases i with
      | zero => omega
      | succ j => rfl)
    (by omega)
